import Mathlib

/-!
Verification development for the smart-sql backend's Query Execution &
Safety Layer.  The definitions are shallow embeddings of the Rust source:

* `src/backend/src/utils/security.rs` — the SQL-injection guard,
* `src/backend/src/api/routes.rs` — statement limit clamping, the
  MongoDB shell-command extraction helpers, the execute-query dispatcher
  and the result normalizers,
* `src/backend/src/utils/bson_parser.rs` — the dangerous-operator
  filter and the aggregation-pipeline limit normalization.

Strings are modelled as Lean `String`/`List Char`; the sources under
test only ever exercise these functions on ASCII text, and byte indices
computed by Rust on ASCII text coincide with character indices, which is
how the index-based slicing below is written.
-/

namespace SmartSql

/-! ### Generic character/list helpers shared by the embeddings -/

/-- Rust's regex `\s` class and `char::is_whitespace`, restricted to the
ASCII range (the guard lower-cases ASCII SQL text before matching). -/
def isWsChar (c : Char) : Bool :=
  c = ' ' || c = '\t' || c = '\n' || c = '\r' || c = '\x0b' || c = '\x0c'

/-- Rust's regex `\w` class on ASCII: letters, digits and underscore. -/
def isWordChar (c : Char) : Bool :=
  c.isAlpha || c.isDigit || c = '_'

/-- ASCII lower-casing, the effect of Rust `str::to_lowercase` on the
ASCII inputs this layer handles. -/
def toLowerAscii (s : String) : String :=
  String.mk (s.toList.map Char.toLower)

/-- Does `p` hold of some suffix of the list?  This is the existential
"match anywhere" semantics of `Regex::is_match` / `str::contains`. -/
def scanAny (p : List Char → Bool) : List Char → Bool
  | [] => p []
  | c :: rest => p (c :: rest) || scanAny p rest

/-- Substring test on char lists: Rust `str::contains(pat)`. -/
def hasSub (pat hay : List Char) : Bool :=
  scanAny (fun s => pat.isPrefixOf s) hay

/-- Substring test on strings. -/
def strHasSub (hay pat : String) : Bool :=
  hasSub pat.toList hay.toList

/-- Char index of the first occurrence of `pat` in the list, if any:
Rust `str::find(pat)` (byte index = char index on ASCII text). -/
def idxOfSub (pat : List Char) : List Char → Option Nat
  | [] => if pat.isPrefixOf ([] : List Char) then some 0 else none
  | c :: rest =>
    if pat.isPrefixOf (c :: rest) then some 0
    else (idxOfSub pat rest).map (· + 1)

/-- Rust `str::starts_with`. -/
def strStarts (hay pat : String) : Bool :=
  pat.toList.isPrefixOf hay.toList

/-- Rust `str::trim` restricted to ASCII whitespace. -/
def trimChars (s : List Char) : List Char :=
  ((s.dropWhile isWsChar).reverse.dropWhile isWsChar).reverse

def strTrim (s : String) : String :=
  String.mk (trimChars s.toList)

/-- Rust `str::trim_matches(p)`: strip matching chars from both ends. -/
def trimMatches (p : Char → Bool) (s : List Char) : List Char :=
  ((s.dropWhile p).reverse.dropWhile p).reverse

/-- Rust `str::split(sep).collect()` for a single-char separator:
splits at every occurrence, keeping empty pieces. -/
def splitChar (sep : Char) : List Char → List (List Char)
  | [] => [[]]
  | c :: rest =>
    let r := splitChar sep rest
    if c = sep then [] :: r
    else
      match r with
      | [] => [[c]]
      | piece :: more => (c :: piece) :: more

/-- Rust `str::split(pat).next()`: the prefix before the first
occurrence of `pat` (the whole string when `pat` does not occur). -/
def splitFirstBy (pat : List Char) (s : List Char) : List Char :=
  match idxOfSub pat s with
  | some i => s.take i
  | none => s

/-- Rust `str::split_once(pat)`: the pieces before and after the first
occurrence of `pat`. -/
def splitOnceBy (pat : List Char) (s : List Char) : Option (List Char × List Char) :=
  match idxOfSub pat s with
  | some i => some (s.take i, s.drop (i + pat.length))
  | none => none

/-- Digit run to a natural number; `none` when empty or a non-digit
appears. -/
def digitsToNat : List Char → Option Nat
  | [] => none
  | cs => go cs 0
where
  go : List Char → Nat → Option Nat
    | [], acc => some acc
    | c :: rest, acc =>
      if c.isDigit then go rest (acc * 10 + (c.toNat - 48)) else none

/-- Rust `str::parse::<u64>()`: optional `+`, then digits, value below
`2^64`. -/
def parseU64 (s : String) : Option Nat :=
  let cs := match s.toList with
    | '+' :: rest => rest
    | cs => cs
  match digitsToNat cs with
  | some n => if n < 2 ^ 64 then some n else none
  | none => none

/-- Rust `str::parse::<u32>()`. -/
def parseU32 (s : String) : Option Nat :=
  let cs := match s.toList with
    | '+' :: rest => rest
    | cs => cs
  match digitsToNat cs with
  | some n => if n < 2 ^ 32 then some n else none
  | none => none

/-- Rust `str::parse::<i64>()`: optional sign, digits, value in the
64-bit signed range. -/
def parseI64 (s : String) : Option Int :=
  let (neg, cs) : Bool × List Char := match s.toList with
    | '+' :: rest => (false, rest)
    | '-' :: rest => (true, rest)
    | cs => (false, cs)
  match digitsToNat cs with
  | some n =>
    if neg then if n ≤ 2 ^ 63 then some (-(n : Int)) else none
    else if n < 2 ^ 63 then some (n : Int) else none
  | none => none

/-- Rust `str::parse::<i32>()`. -/
def parseI32 (s : String) : Option Int :=
  let (neg, cs) : Bool × List Char := match s.toList with
    | '+' :: rest => (false, rest)
    | '-' :: rest => (true, rest)
    | cs => (false, cs)
  match digitsToNat cs with
  | some n =>
    if neg then if n ≤ 2 ^ 31 then some (-(n : Int)) else none
    else if n < 2 ^ 31 then some (n : Int) else none
  | none => none

/-! ### Injection guard — `src/backend/src/utils/security.rs`

`SqlInjectionProtection::detect_injection` lower-cases the query text,
then applies seven regex rules in order and finally a fixed list of
suspicious substrings; the first match short-circuits with its reason.
Each regex below is hand-compiled to a scanner with the same
existential match semantics. -/

/-- Match `\s*` then continue with `k` (existential semantics). -/
def wsStarThen (k : List Char → Bool) : List Char → Bool
  | [] => k []
  | c :: rest => k (c :: rest) || (isWsChar c && wsStarThen k rest)

/-- Match `\s+` then continue with `k`. -/
def wsPlusThen (k : List Char → Bool) (s : List Char) : Bool :=
  match s with
  | [] => false
  | c :: rest => isWsChar c && wsStarThen k rest

/-- Regex 1, `(;|--|\||\s)union\s+select`, matched at the head of the
list. -/
def unionSelectAt (s : List Char) : Bool :=
  let unionPart : List Char → Bool := fun r =>
    "union".toList.isPrefixOf r &&
      wsPlusThen (fun t => "select".toList.isPrefixOf t) (r.drop 5)
  match s with
  | ';' :: r => unionPart r
  | '|' :: r => unionPart r
  | '-' :: '-' :: r => unionPart r
  | c :: r => isWsChar c && unionPart r
  | [] => false

/-- Regex `kw1\s+kw2\s+` (for `drop\s+table\s+` / `alter\s+table\s+`),
matched at the head. -/
def kwPairAt (kw1 kw2 : String) (s : List Char) : Bool :=
  kw1.toList.isPrefixOf s &&
    wsPlusThen
      (fun t =>
        kw2.toList.isPrefixOf t && wsPlusThen (fun _ => true) (t.drop kw2.length))
      (s.drop kw1.length)

/-- Regex 4, `(create|drop)\s+database`, matched at the head. -/
def createDropDbAt (s : List Char) : Bool :=
  let dbPart : List Char → Bool := fun r =>
    wsPlusThen (fun t => "database".toList.isPrefixOf t) r
  ("create".toList.isPrefixOf s && dbPart (s.drop 6)) ||
    ("drop".toList.isPrefixOf s && dbPart (s.drop 4))

/-- Regex 5, `;\s*\w+`, matched at the head. -/
def multiStatementAt (s : List Char) : Bool :=
  match s with
  | ';' :: r =>
    wsStarThen
      (fun t => match t with
        | c :: _ => isWordChar c
        | [] => false) r
  | _ => false

/-- Regex 6, `exec\s*\(|sp_executesql|xp_cmdshell`, matched at the
head (the two bare alternatives are substring checks by themselves). -/
def dangerousFnAt (s : List Char) : Bool :=
  ("exec".toList.isPrefixOf s &&
      wsStarThen
        (fun t => match t with
          | '(' :: _ => true
          | _ => false) (s.drop 4)) ||
    "sp_executesql".toList.isPrefixOf s ||
    "xp_cmdshell".toList.isPrefixOf s

/-- The `.*(\*/|$)` tail of regex 7: a run of non-newline characters
followed by `*/` or the end of the haystack. -/
def commentTail : List Char → Bool
  | [] => true
  | '*' :: '/' :: _ => true
  | c :: rest => c ≠ '\n' && commentTail rest

/-- One of the comment introducers `--`, `#`, `/*` at the head,
followed by `commentTail`. -/
def commentIntroAt (s : List Char) : Bool :=
  ("--".toList.isPrefixOf s && commentTail (s.drop 2)) ||
    ("#".toList.isPrefixOf s && commentTail (s.drop 1)) ||
    ("/*".toList.isPrefixOf s && commentTail (s.drop 2))

/-- Regex 7, `(\s|^)(--|#|/\*).*(\*/|$)`: scan with a flag telling
whether the current position is the start or preceded by whitespace. -/
def commentScan : Bool → List Char → Bool
  | prevOk, s =>
    (prevOk && commentIntroAt s) ||
      match s with
      | [] => false
      | c :: rest => commentScan (isWsChar c) rest

/-- The dangerous-pattern rules of `check_dangerous_patterns`, in
source order, with their reason strings. -/
def dangerousPatternRules : List ((List Char → Bool) × String) :=
  [ (scanAny unionSelectAt, "UNION SELECT注入尝试"),
    (scanAny (kwPairAt "drop" "table"), "DROP TABLE操作不允许"),
    (scanAny (kwPairAt "alter" "table"), "ALTER TABLE操作不允许"),
    (scanAny createDropDbAt, "数据库操作不允许"),
    (scanAny multiStatementAt, "多语句执行不允许"),
    (scanAny dangerousFnAt, "危险函数调用不允许"),
    (commentScan true, "注释注入尝试") ]

/-- The metacharacter combinations of
`contains_dangerous_metacharacters`. -/
def dangerousMetacharCombinations : List String :=
  [ "' or ", " or '", "'--", "' /*", "*/ '", "'= '", "'like '", "1=1",
    "' union ", "' and ", " and '", ") or (", "' or ''='", "' or 1=1",
    ") or 1=1--" ]

/-- `SqlInjectionProtection::contains_dangerous_metacharacters`. -/
def contains_dangerous_metacharacters (sql : List Char) : Bool :=
  dangerousMetacharCombinations.any (fun comb => hasSub comb.toList sql)

/-- `SqlInjectionProtection::check_dangerous_patterns` on the already
lower-cased text: first matching rule's reason, else the metacharacter
pass, else safe (`none`). -/
def check_dangerous_patterns (sql : List Char) : Option String :=
  match dangerousPatternRules.find? (fun rule => rule.1 sql) with
  | some rule => some rule.2
  | none =>
    if contains_dangerous_metacharacters sql then
      some "检测到可疑的SQL元字符组合"
    else none

/-- `SqlInjectionProtection::detect_injection`. -/
def detect_injection (sql : String) : Except String Unit :=
  match check_dangerous_patterns (toLowerAscii sql).toList with
  | some reason => Except.error reason
  | none => Except.ok ()

/-! ### Statement parser & limit clamp — `src/backend/src/api/routes.rs`

`apply_limit_clamping` works on the `sqlparser` AST.  Only the parts of
that AST the function inspects are modelled: a parsed statement is
either a `Query` (SELECT-shaped) carrying an optional `LIMIT`
expression, or some other statement kind.  A `sqlparser`
`Value::Number` keeps the literal as a string (with a `long` flag), so
arbitrarily large literals parse; `.other` constructors carry the text
that `Statement::to_string()` (the AST serialization used by
`reconstruct_sql`) produces for them.  The parser itself is the
external `sqlparser` crate, so the embedding abstracts it as a
`String → Option SqlStatement` argument: `some st` models
`parse_sql` succeeding with exactly one statement `st`, `none` models
the failure path that falls back to the string scan. -/

/-- A `sqlparser` expression, as far as the limit clamp inspects it:
`Expr::Value(Value::Number(s, long))` or anything else (carried as its
serialized text). -/
inductive SqlValueExpr where
  | number (s : String) (long : Bool)
  | other (text : String)
deriving DecidableEq, Repr

def SqlValueExpr.text : SqlValueExpr → String
  | .number s _ => s
  | .other t => t

/-- A parsed statement: a SELECT-shaped `Query` with its source text
minus any `LIMIT` clause plus the optional `LIMIT` expression, or any
other statement kind carried as its serialized text. -/
inductive SqlStatement where
  | query (body : String) (lim : Option SqlValueExpr)
  | other (text : String)
deriving DecidableEq, Repr

def MAX_LIMIT : Nat := 1500
def DEFAULT_LIMIT : Nat := 200

/-- `apply_limit_clamping` (routes.rs:390-426): on a `Query`, clamp an
existing numeric `LIMIT` to `min(current, MAX_LIMIT)` when its literal
parses as `u64` (otherwise leave it untouched), or insert
`LIMIT DEFAULT_LIMIT` when absent; leave every other statement kind
unchanged. -/
def apply_limit_clamping : SqlStatement → SqlStatement
  | .query body lim =>
    match lim with
    | some (.number s long) =>
      match parseU64 s with
      | some current => .query body (some (.number (toString (min current MAX_LIMIT)) long))
      | none => .query body (some (.number s long))
    | some (.other e) => .query body (some (.other e))
    | none => .query body (some (.number (toString DEFAULT_LIMIT) false))
  | .other t => .other t

/-- `reconstruct_sql` (routes.rs:429-431): `Statement::to_string()`.
For a `Query` the serializer prints the body and then the `LIMIT`
clause; other statements print their carried text. -/
def reconstruct_sql : SqlStatement → String
  | .query body lim =>
    body ++ (match lim with
      | some e => " LIMIT " ++ e.text
      | none => "")
  | .other t => t

/-- The digit-collection loop of the string fallback (routes.rs
452-463): digits are pushed, whitespace is skipped, anything else
stops the scan. -/
def collectLimitDigits : List Char → List Char
  | [] => []
  | c :: rest =>
    if c.isDigit then c :: collectLimitDigits rest
    else if isWsChar c then collectLimitDigits rest
    else []

/-- The string fallback of `add_limit_to_sql` (routes.rs 443-487),
used only when AST parsing fails: a textual scan for `" limit "`,
clamping the digits after it in place, else appending `" LIMIT 200"`. -/
def add_limit_fallback (sql : String) : String :=
  let cs := sql.toList
  let lowerCs := (toLowerAscii sql).toList
  if hasSub " limit ".toList lowerCs then
    match idxOfSub " limit ".toList lowerCs with
    | some limitIndex =>
      let afterLimit := cs.drop (limitIndex + 7)
      let limitValue := String.mk (collectLimitDigits afterLimit)
      let lim := min ((parseU32 limitValue).getD 200) 1500
      let beforeLimit := cs.take (limitIndex + 7)
      let afterLimitDigit := afterLimit.dropWhile (fun c => c.isDigit || isWsChar c)
      String.mk beforeLimit ++ toString lim ++ String.mk afterLimitDigit
    | none => sql ++ " LIMIT 200"
  else sql ++ " LIMIT 200"

/-- `add_limit_to_sql` (routes.rs 436-489), with the external
`sqlparser` parse abstracted as `parse`. -/
def add_limit_to_sql (parse : String → Option SqlStatement) (sql : String) : String :=
  match parse sql with
  | some st => reconstruct_sql (apply_limit_clamping st)
  | none => add_limit_fallback sql

/-! ### BSON values — the `mongodb::bson` data the document-store path
manipulates.

A `Document` is its ordered field list.  `Bson::Double` carries the
exact rational value of the (finite) 64-bit float: every finite double
is a rational, and no claim below compares parsed doubles, so rounding
to the nearest double and the non-finite values are not modelled. -/

inductive Bson where
  | null
  | bool (b : Bool)
  | int32 (n : Int)
  | int64 (n : Int)
  | double (q : ℚ)
  | string (s : String)
  | array (elems : List Bson)
  | document (fields : List (String × Bson))

/-- An ordered BSON document, `mongodb::bson::Document`. -/
abbrev BsonDoc := List (String × Bson)

/-- `Document::contains_key`. -/
def docContainsKey (d : BsonDoc) (k : String) : Bool :=
  d.any (fun kv => kv.1 = k)

/-- `Document::get`: the value at the first occurrence of the key. -/
def docGet (d : BsonDoc) (k : String) : Option Bson :=
  (d.find? (fun kv => kv.1 = k)).map Prod.snd

/-- `Document::insert`: replace the value at an existing key in place,
else append the pair at the end. -/
def docInsert (d : BsonDoc) (k : String) (v : Bson) : BsonDoc :=
  match d with
  | [] => [(k, v)]
  | (k', v') :: rest =>
    if k' = k then (k', v) :: rest else (k', v') :: docInsert rest k v

/-! ### Dangerous-operator filter — `src/backend/src/utils/bson_parser.rs` -/

/-- The `DANGEROUS_OPERATORS` denylist (bson_parser.rs:7-18). -/
def DANGEROUS_OPERATORS : List String :=
  [ "$where", "$eval", "$function", "$javascript", "$mapReduce",
    "$group.$push", "$group.$addToSet", "$out", "$merge", "$bucketAuto" ]

/-- Membership in the denylist (the `HashSet` lookup). -/
def isDangerousOperator (k : String) : Bool :=
  DANGEROUS_OPERATORS.contains k

mutual

/-- `check_dangerous_operators_recursive` (bson_parser.rs:61-87). -/
def check_dangerous_bson : Bson → Bool
  | .document fields => check_dangerous_fields fields
  | .array elems => check_dangerous_elems elems
  | _ => false

def check_dangerous_fields : List (String × Bson) → Bool
  | [] => false
  | (k, v) :: rest =>
    isDangerousOperator k || check_dangerous_bson v || check_dangerous_fields rest

def check_dangerous_elems : List Bson → Bool
  | [] => false
  | v :: rest => check_dangerous_bson v || check_dangerous_elems rest

end

/-- `contains_dangerous_operators` (bson_parser.rs:53-58). -/
def contains_dangerous_operators (d : BsonDoc) : Bool :=
  check_dangerous_bson (.document d)

mutual

/-- `filter_dangerous_operators_recursive` (bson_parser.rs:105-125). -/
def filter_dangerous_bson : Bson → Bson
  | .document fields => .document (filter_dangerous_fields fields)
  | .array elems => .array (filter_dangerous_elems elems)
  | b => b

def filter_dangerous_fields : List (String × Bson) → List (String × Bson)
  | [] => []
  | (k, v) :: rest =>
    if isDangerousOperator k then filter_dangerous_fields rest
    else (k, filter_dangerous_bson v) :: filter_dangerous_fields rest

def filter_dangerous_elems : List Bson → List Bson
  | [] => []
  | v :: rest => filter_dangerous_bson v :: filter_dangerous_elems rest

end

/-- `filter_dangerous_operators` (bson_parser.rs:90-102): wrap the
document, filter recursively, unwrap. -/
def filter_dangerous_operators (d : BsonDoc) : BsonDoc :=
  filter_dangerous_fields d

/-! `mentionsKey`: a keyed occurrence at any nesting depth (through
documents and arrays).  This is the spec-side notion "a key appears at
some depth", used to state removal/preservation independently of the
source's own `contains_dangerous_operators`. -/

mutual

def mentionsKey (k : String) : Bson → Bool
  | .document fields => mentionsKeyFields k fields
  | .array elems => mentionsKeyElems k elems
  | _ => false

def mentionsKeyFields (k : String) : List (String × Bson) → Bool
  | [] => false
  | (k', v) :: rest => k' = k || mentionsKey k v || mentionsKeyFields k rest

def mentionsKeyElems (k : String) : List Bson → Bool
  | [] => false
  | v :: rest => mentionsKey k v || mentionsKeyElems k rest

end

/-! ### Pipeline limit normalization — `add_or_adjust_limit`
(bson_parser.rs:144-175). -/

/-- Rust `i64 as i32`: two's-complement truncation (wrapping). -/
def i64_as_i32 (n : Int) : Int :=
  (n + 2 ^ 31) % 2 ^ 32 - 2 ^ 31

/-- Rust `f64 as i32`: truncate toward zero, saturate to the i32
range (NaN, which `as` sends to 0, is not representable here). -/
def f64_as_i32 (q : ℚ) : Int :=
  let t : Int := if q < 0 then ⌈q⌉ else ⌊q⌋
  max (-(2 ^ 31)) (min t (2 ^ 31 - 1))

/-- The per-stage `$limit` coercion of `add_or_adjust_limit`
(bson_parser.rs:154-160): `Int32` as is, `Int64`/`Double` cast with
`as i32`, anything else 200. -/
def limitValueOf : Bson → Int
  | .int32 v => v
  | .int64 v => i64_as_i32 v
  | .double v => f64_as_i32 v
  | _ => 200

/-- `add_or_adjust_limit` (bson_parser.rs:144-175): if some stage has
a `$limit` key, rewrite every such stage's value to
`Int32 (min coerced 1500)`; otherwise append a `{"$limit": 200}`
stage. -/
def add_or_adjust_limit (pipeline : List BsonDoc) : List BsonDoc :=
  let has_limit := pipeline.any (fun stage => docContainsKey stage "$limit")
  if has_limit then
    pipeline.map (fun stage =>
      match docGet stage "$limit" with
      | some limit_bson =>
        docInsert stage "$limit" (.int32 (min (limitValueOf limit_bson) 1500))
      | none => stage)
  else
    pipeline ++ [[("$limit", Bson.int32 200)]]

/-! ### Shell-command extraction helpers — routes.rs:273-317. -/

/-- `find_close_bracket` (routes.rs:274-289): scan with a nesting
depth starting at 1 over `(`,`{`,`[` / `)`,`}`,`]`, returning the char
index where the depth returns to zero. -/
def find_close_bracket (s : List Char) : Option Nat :=
  go s 1 0
where
  go : List Char → Int → Nat → Option Nat
    | [], _, _ => none
    | c :: rest, depth, i =>
      if c = '(' || c = '{' || c = '[' then go rest (depth + 1) (i + 1)
      else if c = ')' || c = '}' || c = ']' then
        if depth - 1 = 0 then some i else go rest (depth - 1) (i + 1)
      else go rest depth (i + 1)

/-- `split_params` (routes.rs:292-317): split on top-level commas
only, tracking the same nesting depth, trimming each piece; a trailing
piece is pushed only when non-empty-by-position (`start < s.len()`),
which coincides with the current segment being non-empty. -/
def split_params_go : List Char → Int → List Char → List (List Char)
  | [], _, cur => if cur.isEmpty then [] else [trimChars cur]
  | c :: rest, depth, cur =>
    if c = '(' || c = '{' || c = '[' then split_params_go rest (depth + 1) (cur ++ [c])
    else if c = ')' || c = '}' || c = ']' then split_params_go rest (depth - 1) (cur ++ [c])
    else if c = ',' ∧ depth = 0 then trimChars cur :: split_params_go rest depth []
    else split_params_go rest depth (cur ++ [c])

def split_params (s : List Char) : List (List Char) :=
  split_params_go s 0 []

/-! ### The shorthand projection parser — `parse_mongodb_projection`
(routes.rs:320-365). -/

/-- Rust `str::parse::<f64>()` acceptance and exact decimal value:
optional sign, then `digits [. digits]`, `. digits` or `digits .`,
with an optional `e`/`E` exponent carrying its own optional sign and
mandatory digits.  `inf`/`infinity`/`nan` are accepted by Rust but
carry non-finite values, which this rational model does not represent;
no claim below reaches them. -/
def rustParseF64 (s : String) : Option ℚ :=
  let (sign, cs) : ℚ × List Char := match s.toList with
    | '+' :: rest => (1, rest)
    | '-' :: rest => (-1, rest)
    | cs => (1, cs)
  let (mant, expPart) : List Char × Option (List Char) :=
    match idxOfSub ['e'] cs, idxOfSub ['E'] cs with
    | some i, _ => (cs.take i, some (cs.drop (i + 1)))
    | none, some i => (cs.take i, some (cs.drop (i + 1)))
    | none, none => (cs, none)
  let expVal : Option Int := match expPart with
    | none => some 0
    | some ec =>
      let (eneg, ecs) : Bool × List Char := match ec with
        | '+' :: rest => (false, rest)
        | '-' :: rest => (true, rest)
        | rest => (false, rest)
      (digitsToNat ecs).map (fun n => if eneg then -(n : Int) else (n : Int))
  match expVal with
  | none => none
  | some e =>
    let (ip, fp) : List Char × Option (List Char) :=
      match idxOfSub ['.'] mant with
      | some i => (mant.take i, some (mant.drop (i + 1)))
      | none => (mant, none)
    let fracDigits := fp.getD []
    if (ip.isEmpty && fracDigits.isEmpty) ||
        !(ip.all Char.isDigit) || !(fracDigits.all Char.isDigit) ||
        (ip.isEmpty && fp.isSome && fracDigits.isEmpty) then
      none
    else
      let ipVal : ℚ := ((digitsToNat ip).getD 0 : Nat)
      let fpVal : ℚ := ((digitsToNat fracDigits).getD 0 : Nat)
      some (sign * (ipVal + fpVal / (10 : ℚ) ^ fracDigits.length) * (10 : ℚ) ^ e)

/-- The fixed value-coercion order of `parse_mongodb_projection`
(routes.rs:341-357). -/
def projectionValue (valueTrimmed : String) : Bson :=
  if valueTrimmed = "1" then .int32 1
  else if valueTrimmed = "0" then .int32 0
  else if valueTrimmed = "true" then .bool true
  else if valueTrimmed = "false" then .bool false
  else match parseI32 valueTrimmed with
    | some n => .int32 n
    | none => match rustParseF64 valueTrimmed with
      | some q => .double q
      | none => .string valueTrimmed

/-- `parse_mongodb_projection` (routes.rs:320-365): trim braces, split
on every comma, split each pair at the first colon, coerce the value.
The Rust signature is `Result`, but the function only ever returns
`Ok`. -/
def parse_mongodb_projection (projection_str : String) : Except String BsonDoc :=
  let trimmed :=
    trimChars (trimMatches (fun c => c = '{' || c = '}') (trimChars projection_str.toList))
  if trimmed.isEmpty then .ok []
  else
    let pairs := (splitChar ',' trimmed).map trimChars
    .ok (pairs.foldl
      (fun doc pair =>
        match splitOnceBy [':'] pair with
        | some (key, value) =>
          let keyTrimmed := String.mk (trimChars key)
          let valueTrimmed := String.mk (trimChars value)
          docInsert doc keyTrimmed (projectionValue valueTrimmed)
        | none => doc)
      [])

/-! ### The execute-query dispatcher — `execute_query`
(routes.rs:1307-1826).

After resolving the connection and building the connection string, the
handler matches on the pool variant and issues exactly one driver
request per arm; `DriverCall` records that request.  The external
pieces are abstracted: `parse` is the `sqlparser` parse used by
`add_limit_to_sql`, `jsonParse` is the
`serde_json::from_str` + `bson::to_document` chain used for the find
filter.  Note that the handler never calls
`SqlInjectionProtection::detect_injection`: no arm consults the guard,
which the claims below make precise. -/

inductive DatabasePool where
  | mysql
  | postgresql
  | sqlite
  | mongodb
deriving DecidableEq, Repr

/-- The single backend request an `execute_query` arm issues. -/
inductive DriverCall where
  | sqlExec (text : String)
  | mongoFind (collection : String) (filter : Option BsonDoc)
      (projection : Option BsonDoc) (limit : Int)

/-- Collection-name extraction of the MongoDB arm
(routes.rs:1620-1658), on the trimmed query text. -/
def mongoCollectionName (sql : String) : String :=
  let method_split :=
    if strHasSub sql ".find(" then ".find("
    else if strHasSub sql ".aggregate(" then ".aggregate("
    else "."
  if strStarts sql "db.getCollection(" then
    let collection_match := splitFirstBy method_split.toList sql.toList
    match (splitChar '"' collection_match).get? 1 with
    | some name => String.mk name
    | none => String.mk (((splitChar '\'' collection_match).get? 1).getD [])
  else if strStarts sql "db." then
    let collection_part := splitFirstBy method_split.toList sql.toList
    String.mk (((splitChar '.' collection_part).get? 1).getD [])
  else sql

/-- The `.find(` argument extraction of the MongoDB arm
(routes.rs:1667-1711): balanced-bracket span, top-level comma split,
then the filter (strict JSON) and projection (shorthand parser with a
JSON fallback). -/
def mongoFindArgs (jsonParse : String → Option BsonDoc) (sql : String) :
    Option BsonDoc × Option BsonDoc :=
  match splitOnceBy ".find(".toList sql.toList with
  | some (_, params_part) =>
    match find_close_bracket params_part with
    | some end_idx =>
      let params := split_params (params_part.take end_idx)
      let query := match params.get? 0 with
        | some query_str =>
          let trimmed := String.mk (trimChars query_str)
          if trimmed ≠ "" ∧ trimmed ≠ "\x7b\x7d" then jsonParse trimmed else none
        | none => none
      let projection := match params.get? 1 with
        | some projection_str =>
          let trimmed := String.mk (trimChars projection_str)
          if trimmed ≠ "" ∧ trimmed ≠ "\x7b\x7d" then
            match parse_mongodb_projection trimmed with
            | .ok doc => some doc
            | .error _ => jsonParse trimmed
          else none
        | none => none
      (query, projection)
    | none => (none, none)
  | none => (none, none)

/-- The limit policy of the MongoDB arm (routes.rs:1719-1751): default
200; with `.limit(n)` syntax, `min(n, 1500)`. -/
def mongoLimit (sql : String) : Int :=
  let sql_lower := toLowerAscii sql
  let has_limit := strHasSub sql_lower " limit" || strHasSub sql_lower ".limit("
  if has_limit then
    match idxOfSub ".limit(".toList sql_lower.toList with
    | some limit_index =>
      let after_limit := sql.toList.drop (limit_index + 7)
      let limit_value := String.mk (collectLimitDigits after_limit)
      min ((parseI64 limit_value).getD 200) 1500
    | none => 200
  else 200

/-- The driver request issued by each arm of `execute_query`
(routes.rs:1379-1761): the MySQL arm executes `payload.sql` verbatim,
the PostgreSQL and SQLite arms execute `add_limit_to_sql(payload.sql)`,
and the MongoDB arm runs a `find` with the extracted pieces. -/
def execute_query_driver_call (parse : String → Option SqlStatement)
    (jsonParse : String → Option BsonDoc) :
    DatabasePool → String → DriverCall
  | .mysql, sql => .sqlExec sql
  | .postgresql, sql => .sqlExec (add_limit_to_sql parse sql)
  | .sqlite, sql => .sqlExec (add_limit_to_sql parse sql)
  | .mongodb, payloadSql =>
    let sql := strTrim payloadSql
    let args := mongoFindArgs jsonParse sql
    .mongoFind (mongoCollectionName sql) args.1 args.2 (mongoLimit sql)

/-! ### Result normalization — the per-arm row conversion of
`execute_query`. -/

/-- A `serde_json::Value` row cell. -/
inductive JsonVal where
  | null
  | jbool (b : Bool)
  | jstr (s : String)
  | jint (n : Int)
  | jnum (q : ℚ)
  | jarr (elems : List JsonVal)
  | jobj (fields : List (String × JsonVal))

/-- A native driver cell, described by which `try_get` decodes
succeed on it (a decode out of range of the row fails). -/
structure NativeCell where
  asString : Option String
  asI64 : Option Int
  asF64 : Option ℚ

/-- The MySQL fallback decode chain (routes.rs:1426-1453): string,
then i64, then f64, then null. -/
def decodeMySqlCell (c : NativeCell) : JsonVal :=
  match c.asString with
  | some v => .jstr v
  | none =>
    match c.asI64 with
    | some v => .jint v
    | none =>
      match c.asF64 with
      | some v => .jnum v
      | none => .null

/-- `row.try_get(i)` with the MySQL chain: an out-of-bounds index
fails every decode and yields null. -/
def mysqlCellAt (row : List NativeCell) (i : Nat) : JsonVal :=
  match row.get? i with
  | some c => decodeMySqlCell c
  | none => .null

/-- The rows a sqlx query returns: all rows of one statement share the
statement's column metadata (`row.columns()`), carried once. -/
structure MySqlNativeRows where
  cols : List String
  rows : List (List NativeCell)

/-- The uniform result contract (`SqlQueryResult`), restricted to the
fields the claims are about. -/
structure SqlQueryResult where
  columns : List String
  rows : List (List JsonVal)
  row_count : Nat

/-- The MySQL arm's normalization (routes.rs:1406-1472): columns from
the first row's metadata (empty when no rows), one decoded value per
column per row, `row_count = rows.len()`. -/
def mysql_normalize (native : MySqlNativeRows) : SqlQueryResult :=
  let columns := match native.rows with
    | [] => []
    | _ => native.cols
  let json_rows := native.rows.map
    (fun row => (List.range native.cols.length).map (fun i => mysqlCellAt row i))
  { columns := columns, rows := json_rows, row_count := native.rows.length }

/-- Native rows with typed column metadata (name, type-info name). -/
structure TypedNativeRows where
  cols : List (String × String)
  rows : List (List NativeCell)

/-- The PostgreSQL typed decode (routes.rs:1501-1523): select the
decoder by the declared type name, falling back to string decoding. -/
def pgDecode (ty : String) (c : NativeCell) : JsonVal :=
  if ty = "INT2" ∨ ty = "INT4" ∨ ty = "INT8" then
    (c.asI64.map .jint).getD .null
  else if ty = "FLOAT4" ∨ ty = "FLOAT8" ∨ ty = "NUMERIC" then
    (c.asF64.map .jnum).getD .null
  else
    (c.asString.map .jstr).getD .null

/-- The SQLite typed decode (routes.rs:1570-1592). -/
def sqliteDecode (ty : String) (c : NativeCell) : JsonVal :=
  if ty = "INTEGER" then (c.asI64.map .jint).getD .null
  else if ty = "REAL" then (c.asF64.map .jnum).getD .null
  else (c.asString.map .jstr).getD .null

/-- Typed normalization shared by the PostgreSQL and SQLite arms
(routes.rs:1490-1541, 1559-1610), parameterized by the decoder. -/
def typed_normalize (decode : String → NativeCell → JsonVal)
    (native : TypedNativeRows) : SqlQueryResult :=
  let columns := match native.rows with
    | [] => []
    | _ => native.cols.map Prod.fst
  let json_rows := native.rows.map
    (fun row =>
      (List.range native.cols.length).map
        (fun i =>
          match native.cols.get? i, row.get? i with
          | some col, some c => decode col.2 c
          | _, _ => JsonVal.null))
  { columns := columns, rows := json_rows, row_count := native.rows.length }

def pg_normalize : TypedNativeRows → SqlQueryResult :=
  typed_normalize pgDecode

def sqlite_normalize : TypedNativeRows → SqlQueryResult :=
  typed_normalize sqliteDecode

/-- Lexicographic comparison of char lists by Unicode scalar value —
the order `Vec<String>::sort` uses (UTF-8 byte order coincides with
scalar order). -/
def charListLt : List Char → List Char → Bool
  | [], [] => false
  | [], _ :: _ => true
  | _ :: _, [] => false
  | a :: as, b :: bs =>
    if a.toNat < b.toNat then true
    else if b.toNat < a.toNat then false
    else charListLt as bs

def strLt (a b : String) : Bool :=
  charListLt a.toList b.toList

/-- Insertion of a string into a lexicographically sorted list. -/
def insertSorted (x : String) : List String → List String
  | [] => [x]
  | y :: rest => if strLt y x then y :: insertSorted x rest else x :: y :: rest

def sortStrings (l : List String) : List String :=
  l.foldr insertSorted []

mutual

/-- `serde_json::to_value` on a BSON value (total on this model). -/
def bsonToJson : Bson → JsonVal
  | .null => .null
  | .bool b => .jbool b
  | .int32 n => .jint n
  | .int64 n => .jint n
  | .double q => .jnum q
  | .string s => .jstr s
  | .array elems => .jarr (bsonToJsonList elems)
  | .document fields => .jobj (bsonToJsonFields fields)

def bsonToJsonList : List Bson → List JsonVal
  | [] => []
  | v :: rest => bsonToJson v :: bsonToJsonList rest

def bsonToJsonFields : List (String × Bson) → List (String × JsonVal)
  | [] => []
  | (k, v) :: rest => (k, bsonToJson v) :: bsonToJsonFields rest

end

/-- The MongoDB arm's normalization (routes.rs:1774-1816): the column
list is the sorted union of the field names observed across the
returned documents, and each document yields one value per sorted
column (null for an absent field). -/
def mongo_normalize (documents : List BsonDoc) : SqlQueryResult :=
  let columns := sortStrings ((documents.flatMap (fun d => d.map Prod.fst)).dedup)
  let json_rows := documents.map
    (fun doc =>
      columns.map (fun col =>
        match docGet doc col with
        | some v => bsonToJson v
        | none => JsonVal.null))
  { columns := columns, rows := json_rows, row_count := json_rows.length }

/-! ### The explain endpoint's pre-AI guard — `explain_sql`
(routes.rs:1177-1208): length check, then the injection guard, before
any AI call.  This is where `detect_injection` is actually enforced
on caller input. -/

inductive ExplainOutcome where
  | rejectedTooLong
  | rejectedInjection (reason : String)
  | aiCalled (sql : String)
deriving DecidableEq, Repr

def explain_sql_guard (sql : String) : ExplainOutcome :=
  if sql.utf8ByteSize > 10000 then .rejectedTooLong
  else
    match detect_injection sql with
    | .error reason => .rejectedInjection reason
    | .ok _ => .aiCalled sql

/-! ### Concrete fixtures used by the claim theorems.

The `... Parse` functions below are concrete instantiations of the
abstract `sqlparser` argument: each one records what the external
parser produces on the specific input its theorem feeds it (a
`sqlparser` numeric literal is kept as its source string, and
`Statement::to_string()` prints canonical keyword casing and single
spacing, so a statement parsed from non-canonical text serializes to
its canonical form). -/

/-- A guard-rejected query text (also rejected by the repository's own
`test_detect_injection`). -/
def dropSql : String := "SELECT * FROM t; DROP TABLE t"

/-- `sqlparser` on `"SELECT * FROM users"`: one SELECT, no LIMIT. -/
def selectUsersParse : String → Option SqlStatement :=
  fun _ => some (.query "SELECT * FROM users" none)

/-- `sqlparser` on `"SELECT * FROM t LIMIT 5000"`. -/
def select5000Parse : String → Option SqlStatement :=
  fun _ => some (.query "SELECT * FROM t" (some (.number "5000" false)))

/-- The literal `2^64`, one past `u64::MAX`: it parses as a
`sqlparser` numeric literal (kept as a string) but overflows
`str::parse::<u64>()`. -/
def bigLimitLiteral : String := "18446744073709551616"

def bigLimitSql : String := "SELECT * FROM t LIMIT 18446744073709551616"

/-- `sqlparser` on `bigLimitSql`. -/
def bigLimitParse : String → Option SqlStatement :=
  fun _ => some (.query "SELECT * FROM t" (some (.number bigLimitLiteral false)))

/-- A non-SELECT statement written with non-canonical spacing, and the
canonical text its parsed AST serializes back to. -/
def insertRawSql : String := "INSERT  INTO t VALUES (1)"

def insertCanonicalSql : String := "INSERT INTO t VALUES (1)"

/-- `sqlparser` on `insertRawSql`: an INSERT statement whose
`to_string()` is the canonical text. -/
def insertParse : String → Option SqlStatement :=
  fun _ => some (.other insertCanonicalSql)

/-- A trivial parse/jsonParse pair for exercising the dispatcher. -/
def noParse : String → Option SqlStatement := fun _ => none

def noJsonParse : String → Option BsonDoc := fun _ => none

/-- A MySQL native result of 201 one-column rows, as a driver returns
for an unbounded `SELECT * FROM users` over a 201-row table. -/
def mysqlNative201 : MySqlNativeRows :=
  { cols := ["id"], rows := List.replicate 201 [⟨some "1", none, none⟩] }

/-- Witness fixtures for the row-width invariant. -/
def exMySqlNative : MySqlNativeRows :=
  { cols := ["id"], rows := [[⟨some "1", none, none⟩]] }

def exPgNative : TypedNativeRows :=
  { cols := [("id", "INT4"), ("name", "TEXT")],
    rows := [[⟨none, some 7, none⟩, ⟨some "a", none, none⟩]] }

def exSqliteNative : TypedNativeRows :=
  { cols := [("id", "INTEGER")], rows := [[⟨none, some 3, none⟩]] }

def exMongoDocs : List BsonDoc :=
  [[("a", Bson.int32 1)], [("b", Bson.string "x")]]

/-- The `$where` filtering example (bson_parser.rs's own
`test_filter_dangerous_operators` input). -/
def exWhereDoc : BsonDoc :=
  [("$where", Bson.string "this.age > 18"),
   ("age", Bson.document [("$gt", Bson.int32 18)])]

def exWhereFiltered : BsonDoc :=
  [("age", Bson.document [("$gt", Bson.int32 18)])]

/-- `$limit: 4294967306` (that is `2^32 + 10`), as parsed from JSON
into a BSON `Int64`: the `as i32` cast wraps it to 10. -/
def wrapPipeline : List BsonDoc := [[("$limit", Bson.int64 4294967306)]]

/-- The nested-value projection input on which plain comma splitting
and top-level comma splitting disagree. -/
def nestedProjStr : String := "{ a: {x: 1, y: 2} }"

/-- Modelled from the spec: the projection parser as §4.3 words it,
"splitting on top-level commas" — identical to
`parse_mongodb_projection` except that the comma split is the
nesting-aware `split_params`.  Used only to exhibit the divergence;
the source function splits on every comma. -/
def parse_mongodb_projection_topsplit (projection_str : String) : Except String BsonDoc :=
  let trimmed :=
    trimChars (trimMatches (fun c => c = '{' || c = '}') (trimChars projection_str.toList))
  if trimmed.isEmpty then .ok []
  else
    let pairs := split_params trimmed
    .ok (pairs.foldl
      (fun doc pair =>
        match splitOnceBy [':'] pair with
        | some (key, value) =>
          let keyTrimmed := String.mk (trimChars key)
          let valueTrimmed := String.mk (trimChars value)
          docInsert doc keyTrimmed (projectionValue valueTrimmed)
        | none => doc)
      [])

/-! ## Helper lemmas -/

mutual

theorem mentionsKey_filter_bson (k : String) (hk : isDangerousOperator k = true) :
    ∀ b : Bson, mentionsKey k (filter_dangerous_bson b) = false
  | .null => rfl
  | .bool _ => rfl
  | .int32 _ => rfl
  | .int64 _ => rfl
  | .double _ => rfl
  | .string _ => rfl
  | .array elems => by
    simpa [filter_dangerous_bson, mentionsKey] using mentionsKey_filter_elems k hk elems
  | .document fields => by
    simpa [filter_dangerous_bson, mentionsKey] using mentionsKey_filter_fields k hk fields

theorem mentionsKey_filter_fields (k : String) (hk : isDangerousOperator k = true) :
    ∀ fields, mentionsKeyFields k (filter_dangerous_fields fields) = false
  | [] => rfl
  | (k', v) :: rest => by
    by_cases hd : isDangerousOperator k' = true
    · simpa [filter_dangerous_fields, hd] using mentionsKey_filter_fields k hk rest
    · have hne : k' ≠ k := fun h => hd (h ▸ hk)
      simp [filter_dangerous_fields, hd, mentionsKeyFields, hne,
        mentionsKey_filter_bson k hk v, mentionsKey_filter_fields k hk rest]

theorem mentionsKey_filter_elems (k : String) (hk : isDangerousOperator k = true) :
    ∀ elems, mentionsKeyElems k (filter_dangerous_elems elems) = false
  | [] => rfl
  | v :: rest => by
    simp [filter_dangerous_elems, mentionsKeyElems,
      mentionsKey_filter_bson k hk v, mentionsKey_filter_elems k hk rest]

end

mutual

theorem filter_bson_of_clean :
    ∀ b : Bson, check_dangerous_bson b = false → filter_dangerous_bson b = b
  | .null, _ => rfl
  | .bool _, _ => rfl
  | .int32 _, _ => rfl
  | .int64 _, _ => rfl
  | .double _, _ => rfl
  | .string _, _ => rfl
  | .array elems, h => by
    simp only [check_dangerous_bson] at h
    simp [filter_dangerous_bson, filter_elems_of_clean elems h]
  | .document fields, h => by
    simp only [check_dangerous_bson] at h
    simp [filter_dangerous_bson, filter_fields_of_clean fields h]

theorem filter_fields_of_clean :
    ∀ fields, check_dangerous_fields fields = false → filter_dangerous_fields fields = fields
  | [], _ => rfl
  | (k, v) :: rest, h => by
    simp only [check_dangerous_fields, Bool.or_eq_false_iff] at h
    obtain ⟨⟨h1, h2⟩, h3⟩ := h
    simp [filter_dangerous_fields, h1, filter_bson_of_clean v h2,
      filter_fields_of_clean rest h3]

theorem filter_elems_of_clean :
    ∀ elems, check_dangerous_elems elems = false → filter_dangerous_elems elems = elems
  | [], _ => rfl
  | v :: rest, h => by
    simp only [check_dangerous_elems, Bool.or_eq_false_iff] at h
    obtain ⟨h1, h2⟩ := h
    simp [filter_dangerous_elems, filter_bson_of_clean v h1, filter_elems_of_clean rest h2]

end

mutual

theorem check_filter_bson :
    ∀ b : Bson, check_dangerous_bson (filter_dangerous_bson b) = false
  | .null => rfl
  | .bool _ => rfl
  | .int32 _ => rfl
  | .int64 _ => rfl
  | .double _ => rfl
  | .string _ => rfl
  | .array elems => by
    simpa [filter_dangerous_bson, check_dangerous_bson] using check_filter_elems elems
  | .document fields => by
    simpa [filter_dangerous_bson, check_dangerous_bson] using check_filter_fields fields

theorem check_filter_fields :
    ∀ fields, check_dangerous_fields (filter_dangerous_fields fields) = false
  | [] => rfl
  | (k, v) :: rest => by
    by_cases hd : isDangerousOperator k = true
    · simpa [filter_dangerous_fields, hd] using check_filter_fields rest
    · simp [filter_dangerous_fields, hd, check_dangerous_fields,
        check_filter_bson v, check_filter_fields rest]

theorem check_filter_elems :
    ∀ elems, check_dangerous_elems (filter_dangerous_elems elems) = false
  | [] => rfl
  | v :: rest => by
    simp [filter_dangerous_elems, check_dangerous_elems,
      check_filter_bson v, check_filter_elems rest]

end

/-- Every non-denylisted key of a document survives filtering, with
its value recursively filtered. -/
theorem keep_nondangerous_mem :
    ∀ (d : BsonDoc) (k : String) (v : Bson), (k, v) ∈ d →
      isDangerousOperator k = false →
      (k, filter_dangerous_bson v) ∈ filter_dangerous_fields d
  | [], _, _, h, _ => absurd h (List.not_mem_nil _)
  | (k', v') :: rest, k, v, h, hk => by
    rcases List.mem_cons.mp h with he | ht
    · cases he
      simp [filter_dangerous_fields, hk]
    · by_cases hd : isDangerousOperator k' = true
      · simpa [filter_dangerous_fields, hd] using keep_nondangerous_mem rest k v ht hk
      · simp only [filter_dangerous_fields, if_neg hd]
        exact List.mem_cons_of_mem _ (keep_nondangerous_mem rest k v ht hk)

/-- Rows produced by the typed normalizer have one value per column. -/
theorem typed_normalize_row_width (decode : String → NativeCell → JsonVal)
    (native : TypedNativeRows) (row : List JsonVal)
    (h : row ∈ (typed_normalize decode native).rows) :
    row.length = (typed_normalize decode native).columns.length := by
  simp only [typed_normalize] at h ⊢
  rcases List.mem_map.mp h with ⟨r, hr, rfl⟩
  cases hrows : native.rows with
  | nil => rw [hrows] at hr; exact absurd hr (List.not_mem_nil _)
  | cons a l => simp [hrows]

/-! ## Claim theorems -/

/-- C4: the Injection Guard rejects
`SELECT * FROM t WHERE id=1 UNION SELECT pass FROM admins` (rule 1)
and `SELECT * FROM t; DROP TABLE t` (rule 2), each with a
human-readable reason, and accepts
`SELECT id, name FROM products WHERE category = 'electronics' LIMIT 10`. -/
theorem guard_concrete_vectors :
    detect_injection "SELECT * FROM t WHERE id=1 UNION SELECT pass FROM admins"
        = Except.error "UNION SELECT注入尝试" ∧
    detect_injection "SELECT * FROM t; DROP TABLE t"
        = Except.error "DROP TABLE操作不允许" ∧
    detect_injection "SELECT id, name FROM products WHERE category = 'electronics' LIMIT 10"
        = Except.ok () :=
  ⟨rfl, rfl, rfl⟩

/-- C1 counterexample: the claim "any query text that the Injection
Guard rejects is refused before any backend I/O" is false on the code:
`execute_query` never calls `detect_injection`, so the guard-rejected
text `dropSql` is dispatched verbatim to the MySQL driver. -/
theorem execute_query_guard_counterexample :
    detect_injection dropSql = Except.error "DROP TABLE操作不允许" ∧
    execute_query_driver_call noParse noJsonParse .mysql dropSql = .sqlExec dropSql :=
  ⟨rfl, rfl⟩

/-- C1 (amended): the execute-query handler does not consult the
Injection Guard — dispatch reaches a backend driver call even for a
text the guard rejects; the guard is instead enforced (with the
matched reason made caller-visible) by the `explain_sql` endpoint
before its AI call. -/
theorem execute_query_never_consults_guard
    (parse : String → Option SqlStatement) (jsonParse : String → Option BsonDoc)
    (sql reason : String) (hrej : detect_injection sql = Except.error reason)
    (hlen : sql.utf8ByteSize ≤ 10000) :
    execute_query_driver_call parse jsonParse .mysql sql = .sqlExec sql ∧
    explain_sql_guard sql = .rejectedInjection reason := by
  refine ⟨rfl, ?_⟩
  simp only [explain_sql_guard]
  rw [if_neg (by omega), hrej]

theorem execute_query_never_consults_guard_witness :
    execute_query_driver_call noParse noJsonParse .mysql dropSql = .sqlExec dropSql ∧
    explain_sql_guard dropSql = .rejectedInjection "DROP TABLE操作不允许" :=
  execute_query_never_consults_guard noParse noJsonParse dropSql
    "DROP TABLE操作不允许" rfl (by decide)

/-- C2 counterexample: the claim "every backend arm of the dispatcher
issues the limit-clamped form of the query to its driver" is false:
the MySQL arm issues `SELECT * FROM users` verbatim (no LIMIT token in
any casing), and normalizing a 201-row driver result reports
`row_count = 201 > 200`. -/
theorem mysql_arm_unclamped_counterexample :
    execute_query_driver_call noParse noJsonParse .mysql "SELECT * FROM users"
        = .sqlExec "SELECT * FROM users" ∧
    strHasSub "SELECT * FROM users" "LIMIT" = false ∧
    strHasSub (toLowerAscii "SELECT * FROM users") "limit" = false ∧
    (mysql_normalize mysqlNative201).row_count = 201 ∧ 200 < 201 :=
  ⟨rfl, rfl, rfl,
   by show mysqlNative201.rows.length = 201
      simp only [mysqlNative201, List.length_replicate],
   by norm_num⟩

/-- C2 (amended): the PostgreSQL and SQLite arms issue
`add_limit_to_sql(payload.sql)`, the MongoDB arm always runs its find
with a limit of at most 1500, but the MySQL arm issues the raw text
unmodified, and its `row_count` is exactly whatever number of rows the
driver returns. -/
theorem dispatcher_clamp_status (parse : String → Option SqlStatement)
    (jsonParse : String → Option BsonDoc) (sql : String)
    (native : MySqlNativeRows) :
    execute_query_driver_call parse jsonParse .postgresql sql
        = .sqlExec (add_limit_to_sql parse sql) ∧
    execute_query_driver_call parse jsonParse .sqlite sql
        = .sqlExec (add_limit_to_sql parse sql) ∧
    execute_query_driver_call parse jsonParse .mysql sql = .sqlExec sql ∧
    execute_query_driver_call parse jsonParse .mongodb sql
        = .mongoFind (mongoCollectionName (strTrim sql))
            (mongoFindArgs jsonParse (strTrim sql)).1
            (mongoFindArgs jsonParse (strTrim sql)).2 (mongoLimit (strTrim sql)) ∧
    mongoLimit (strTrim sql) ≤ 1500 ∧
    (mysql_normalize native).row_count = native.rows.length := by
  refine ⟨rfl, rfl, rfl, rfl, ?_, rfl⟩
  simp only [mongoLimit]
  split
  · split
    · exact min_le_right _ _
    · norm_num
  · norm_num

/-- C3 counterexample: for the numeric literal `2^64` (which
`sqlparser` keeps as a string but `str::parse::<u64>()` overflows on),
the clamp leaves the LIMIT untouched, so the result does not contain
`LIMIT min(N, 1500) = LIMIT 1500`. -/
theorem limit_clamp_overflow_counterexample :
    add_limit_to_sql bigLimitParse bigLimitSql = bigLimitSql ∧
    strHasSub (add_limit_to_sql bigLimitParse bigLimitSql) "LIMIT 1500" = false ∧
    parseU64 bigLimitLiteral = none :=
  ⟨rfl, rfl, rfl⟩

/-- C3 (amended): for a SQL string parsing as one SELECT-shaped
statement, `add_limit_to_sql` yields the statement followed by
`LIMIT 200` when no LIMIT was present, `LIMIT min(N, 1500)` when the
LIMIT literal `N` fits in `u64`, and the untouched literal when it
does not. -/
theorem apply_limit_ast_clamps (parse : String → Option SqlStatement)
    (s body : String) (lim : Option SqlValueExpr)
    (h : parse s = some (.query body lim)) :
    (lim = none → add_limit_to_sql parse s = body ++ " LIMIT 200") ∧
    (∀ ds long n, lim = some (.number ds long) → parseU64 ds = some n →
      add_limit_to_sql parse s = body ++ (" LIMIT " ++ toString (min n 1500))) ∧
    (∀ ds long, lim = some (.number ds long) → parseU64 ds = none →
      add_limit_to_sql parse s = body ++ (" LIMIT " ++ ds)) := by
  refine ⟨?_, ?_, ?_⟩
  · rintro rfl
    have h1 : add_limit_to_sql parse s = body ++ (" LIMIT " ++ toString (200 : Nat)) := by
      simp [add_limit_to_sql, h, apply_limit_clamping, reconstruct_sql,
        SqlValueExpr.text, DEFAULT_LIMIT]
    exact h1.trans (congrArg (fun t => body ++ t) rfl)
  · rintro ds long n rfl hp
    simp [add_limit_to_sql, h, apply_limit_clamping, hp, reconstruct_sql,
      SqlValueExpr.text, MAX_LIMIT]
  · rintro ds long rfl hp
    simp [add_limit_to_sql, h, apply_limit_clamping, hp, reconstruct_sql,
      SqlValueExpr.text]

theorem apply_limit_ast_clamps_witness :
    add_limit_to_sql selectUsersParse "SELECT * FROM users"
        = "SELECT * FROM users LIMIT 200" ∧
    add_limit_to_sql select5000Parse "SELECT * FROM t LIMIT 5000"
        = "SELECT * FROM t LIMIT 1500" := by
  constructor
  · have h := (apply_limit_ast_clamps selectUsersParse "SELECT * FROM users"
      "SELECT * FROM users" none rfl).1 rfl
    exact h.trans (by rfl)
  · have h := (apply_limit_ast_clamps select5000Parse "SELECT * FROM t LIMIT 5000"
      "SELECT * FROM t" (some (.number "5000" false)) rfl).2.1 "5000" false 5000 rfl rfl
    exact h.trans (by rfl)

/-- C8 counterexample: the claim "`add_limit_to_sql` returns the input
unchanged for non-SELECT statements" is false at the string level: the
function returns the re-serialized AST, so the non-canonical spacing
of `insertRawSql` comes back normalized. -/
theorem non_select_reserialized_counterexample :
    add_limit_to_sql insertParse insertRawSql = insertCanonicalSql ∧
    insertCanonicalSql ≠ insertRawSql :=
  ⟨rfl, by decide⟩

/-- C8 (amended): for a SQL string parsing as one non-SELECT
statement, the clamp leaves the statement unchanged and
`add_limit_to_sql` returns exactly its serialization (the input
itself whenever the input is already in serialized form). -/
theorem non_select_passthrough (parse : String → Option SqlStatement)
    (s t : String) (h : parse s = some (.other t)) :
    apply_limit_clamping (.other t) = .other t ∧
    add_limit_to_sql parse s = reconstruct_sql (.other t) ∧
    add_limit_to_sql parse s = t := by
  refine ⟨rfl, ?_, ?_⟩ <;>
    simp [add_limit_to_sql, h, apply_limit_clamping, reconstruct_sql]

theorem non_select_passthrough_witness :
    add_limit_to_sql (fun _ => some (.other "DROP VIEW v")) "DROP VIEW v"
        = "DROP VIEW v" :=
  (non_select_passthrough (fun _ => some (.other "DROP VIEW v"))
    "DROP VIEW v" "DROP VIEW v" rfl).2.2

/-- C9 counterexample: the claim's "splitting on top-level commas" is
false of the code: `parse_mongodb_projection` splits on every comma,
so a nested value is torn apart, producing a key `y` that the
top-level split (the spec-worded variant) does not produce. -/
theorem projection_toplevel_split_counterexample :
    parse_mongodb_projection nestedProjStr
        = .ok [("a", Bson.string "\x7bx: 1"), ("y", Bson.string "2\x7d")] ∧
    parse_mongodb_projection_topsplit nestedProjStr
        = .ok [("a", Bson.string "\x7bx: 1, y: 2\x7d")] ∧
    docContainsKey [("a", Bson.string "\x7bx: 1"), ("y", Bson.string "2\x7d")] "y" = true ∧
    docContainsKey [("a", Bson.string "\x7bx: 1, y: 2\x7d")] "y" = false :=
  ⟨rfl, rfl, rfl, rfl⟩

/-- C9 (amended): the shorthand projection parser maps
`\x7b name: 1, _id: 0 \x7d` to `\x7bname: 1, _id: 0\x7d` and `\x7b\x7d`
to the empty document, by trimming braces, splitting on every comma
(not nesting-aware), splitting each pair at the first colon and
coercing values in the fixed order integer-shortcut / boolean / i32 /
f64 / string. -/
theorem projection_parser_examples :
    parse_mongodb_projection "{ name: 1, _id: 0 }"
        = .ok [("name", Bson.int32 1), ("_id", Bson.int32 0)] ∧
    parse_mongodb_projection "{}" = .ok [] ∧
    parse_mongodb_projection "{ a: true, b: 7, d: xyz }"
        = .ok [("a", Bson.bool true), ("b", Bson.int32 7), ("d", Bson.string "xyz")] :=
  ⟨rfl, rfl, rfl⟩

/-- C5 counterexample: the claim "a `$limit` value is clamped to
`min(value, 1500)`" is false for an `Int64` value of `2^32 + 10`: the
`as i32` cast wraps it to 10, not `min(4294967306, 1500) = 1500`. -/
theorem pipeline_limit_wrap_counterexample :
    add_or_adjust_limit wrapPipeline = [[("$limit", Bson.int32 10)]] ∧
    (4294967306 : Int) = 2 ^ 32 + 10 ∧
    min (4294967306 : Int) 1500 = 1500 ∧
    (10 : Int) ≠ 1500 :=
  ⟨rfl, by norm_num, by norm_num, by norm_num⟩

/-- C5 (amended): without a `$limit` stage the pipeline gets
`\x7b"$limit": 200\x7d` appended as the final stage; with one, each
`$limit` stage's value is read through the i32 coercion (`Int32` as
is, `Int64`/`Double` cast with `as i32`, others 200) and replaced by
`Int32 (min coerced 1500)` — in particular 5000 becomes 1500 and 100
stays 100. -/
theorem pipeline_limit_normalization (p : List BsonDoc) :
    ((p.any fun st => docContainsKey st "$limit") = false →
      add_or_adjust_limit p = p ++ [[("$limit", Bson.int32 200)]]) ∧
    (∀ i stage v, (p.any fun st => docContainsKey st "$limit") = true →
      p.get? i = some stage → docGet stage "$limit" = some (Bson.int32 v) →
      (add_or_adjust_limit p).get? i
        = some (docInsert stage "$limit" (Bson.int32 (min v 1500)))) ∧
    add_or_adjust_limit [[("$limit", Bson.int64 5000)]]
        = [[("$limit", Bson.int32 1500)]] ∧
    add_or_adjust_limit [[("$limit", Bson.int64 100)]]
        = [[("$limit", Bson.int32 100)]] ∧
    add_or_adjust_limit [[("$match", Bson.document [])]]
        = [[("$match", Bson.document [])], [("$limit", Bson.int32 200)]] := by
  refine ⟨?_, ?_, rfl, rfl, rfl⟩
  · intro hnone
    simp [add_or_adjust_limit, hnone]
  · intro i stage v hany hget hlim
    simp [add_or_adjust_limit, hany, List.get?_map, limitValueOf]
    exact ⟨stage, by simpa using hget, by rw [hlim]⟩

theorem pipeline_limit_normalization_witness :
    add_or_adjust_limit [[("$match", Bson.document [])]]
        = [[("$match", Bson.document [])], [("$limit", Bson.int32 200)]] ∧
    (add_or_adjust_limit [[("$limit", Bson.int32 5000)]]).get? 0
        = some [("$limit", Bson.int32 1500)] := by
  constructor
  · exact (pipeline_limit_normalization [[("$match", Bson.document [])]]).1 rfl
  · have h := (pipeline_limit_normalization [[("$limit", Bson.int32 5000)]]).2.1
      0 [("$limit", Bson.int32 5000)] 5000 rfl rfl rfl
    exact h.trans (by rfl)

/-- C6: filtering removes every denylisted key at every nesting depth,
leaves a document containing no dangerous key anywhere unchanged,
keeps every non-denylisted key with its recursively filtered value,
and on the `$where` example produces exactly the document with
`$where` removed and `age` preserved intact. -/
theorem filter_dangerous_removal_preservation (d : BsonDoc) :
    (∀ k, isDangerousOperator k = true →
      mentionsKeyFields k (filter_dangerous_operators d) = false) ∧
    (check_dangerous_fields d = false → filter_dangerous_operators d = d) ∧
    (∀ k v, (k, v) ∈ d → isDangerousOperator k = false →
      (k, filter_dangerous_bson v) ∈ filter_dangerous_operators d) ∧
    filter_dangerous_operators exWhereDoc = exWhereFiltered :=
  ⟨fun k hk => mentionsKey_filter_fields k hk d,
   filter_fields_of_clean d,
   keep_nondangerous_mem d,
   rfl⟩

theorem filter_dangerous_removal_preservation_witness :
    mentionsKeyFields "$where" (filter_dangerous_operators exWhereDoc) = false ∧
    ("age", filter_dangerous_bson (Bson.document [("$gt", Bson.int32 18)]))
      ∈ filter_dangerous_operators exWhereDoc :=
  ⟨(filter_dangerous_removal_preservation exWhereDoc).1 "$where" rfl,
   (filter_dangerous_removal_preservation exWhereDoc).2.2.1 "age"
     (Bson.document [("$gt", Bson.int32 18)])
     (List.mem_cons_of_mem _ (List.mem_cons_self _ _)) rfl⟩

/-- C7: every row emitted by each arm's result normalization has
exactly one value per column. -/
theorem normalized_row_width :
    (∀ native row, row ∈ (mysql_normalize native).rows →
      row.length = (mysql_normalize native).columns.length) ∧
    (∀ native row, row ∈ (pg_normalize native).rows →
      row.length = (pg_normalize native).columns.length) ∧
    (∀ native row, row ∈ (sqlite_normalize native).rows →
      row.length = (sqlite_normalize native).columns.length) ∧
    (∀ docs row, row ∈ (mongo_normalize docs).rows →
      row.length = (mongo_normalize docs).columns.length) := by
  refine ⟨?_, fun native => typed_normalize_row_width pgDecode native,
    fun native => typed_normalize_row_width sqliteDecode native, ?_⟩
  · intro native row h
    simp only [mysql_normalize] at h ⊢
    rcases List.mem_map.mp h with ⟨r, hr, rfl⟩
    cases hrows : native.rows with
    | nil => rw [hrows] at hr; exact absurd hr (List.not_mem_nil _)
    | cons a l => simp [hrows]
  · intro docs row h
    simp only [mongo_normalize] at h ⊢
    rcases List.mem_map.mp h with ⟨doc, hd, rfl⟩
    simp

theorem normalized_row_width_witness :
    ([JsonVal.jstr "1"] : List JsonVal).length
        = (mysql_normalize exMySqlNative).columns.length ∧
    ([JsonVal.jint 7, JsonVal.jstr "a"] : List JsonVal).length
        = (pg_normalize exPgNative).columns.length ∧
    ([JsonVal.jint 3] : List JsonVal).length
        = (sqlite_normalize exSqliteNative).columns.length ∧
    ([JsonVal.jint 1, JsonVal.null] : List JsonVal).length
        = (mongo_normalize exMongoDocs).columns.length :=
  ⟨normalized_row_width.1 exMySqlNative _ (List.mem_singleton.mpr rfl),
   normalized_row_width.2.1 exPgNative _ (List.mem_singleton.mpr rfl),
   normalized_row_width.2.2.1 exSqliteNative _ (List.mem_singleton.mpr rfl),
   normalized_row_width.2.2.2 exMongoDocs _
     (List.mem_map.mpr ⟨[("a", Bson.int32 1)], List.mem_cons_self _ _, by rfl⟩)⟩

/-- C10: the dangerous-operator check returns false on any filtered
document, and consequently filtering is idempotent. -/
theorem filter_fixpoint (d : BsonDoc) :
    contains_dangerous_operators (filter_dangerous_operators d) = false ∧
    filter_dangerous_operators (filter_dangerous_operators d)
        = filter_dangerous_operators d :=
  ⟨check_filter_fields d, filter_fields_of_clean _ (check_filter_fields d)⟩

end SmartSql
